import Mathlib

/-!
Verification of the recipe-generation backend (`src/app.py`, Flask + Gemini +
MySQL) against its natural-language specification.

The embedding is shallow: the request handlers become pure Lean functions over
explicit state and fault oracles.  External collaborators are modelled as
follows.

* The generative-AI call (`model.generate_content`) is an `Except String
  String` oracle: either an exception message or the raw reply text.
* The MySQL store is a `DbState` (an auto-increment counter plus the list of
  committed rows).  Statement-level failures are driven by a `Bool` oracle.
  Following the `mysql-connector` default (`autocommit = False`), rows written
  through a connection become durable only when `conn.commit()` runs; a
  connection abandoned without commit loses its pending rows.
* `json.loads` / `json.dumps` are modelled by an executable parser and printer
  over a `Json` type covering the fragment relevant to the program (strings
  without unicode escapes, integer numbers, arrays, objects, booleans, null).
* `CURRENT_TIMESTAMP` is modelled by the store tick, which the data-model
  invariant of the spec (created_at monotonically reflects insertion order)
  requires to be strictly increasing across inserts.
-/

/-- The backtick character, written numerically. -/
def btChar : Char := Char.ofNat 96

/-- Characters removed by Python `str.strip()` (the ASCII whitespace set). -/
def pySpace (c : Char) : Bool :=
  c == ' ' || c == '\t' || c == '\n' || c == '\r' ||
  c == Char.ofNat 11 || c == Char.ofNat 12

/-- Python `str.lstrip()` on a character list. -/
def lstrip (l : List Char) : List Char := l.dropWhile pySpace

/-- Python `str.rstrip()` on a character list. -/
def rstrip (l : List Char) : List Char := (l.reverse.dropWhile pySpace).reverse

/-- Python `str.strip()` on a character list. -/
def pyStrip (l : List Char) : List Char := lstrip (rstrip l)

/-- Boolean test that `sep` is an initial segment of `l`. -/
def isPre : List Char → List Char → Bool
  | [], _ => true
  | _ :: _, [] => false
  | a :: as, b :: bs => a == b && isPre as bs

/-- Locate the first occurrence of the (non-empty) separator `sep` in `l`,
returning the text before it and the text after it; `none` when `sep` does not
occur.  This is the primitive underlying Python `str.split(sep)` and the
substring test `sep in l`. -/
def findSplit (sep : List Char) : List Char → Option (List Char × List Char)
  | [] => none
  | c :: cs =>
    if isPre sep (c :: cs) then some ([], (c :: cs).drop sep.length)
    else
      match findSplit sep cs with
      | none => none
      | some (b, a) => some (c :: b, a)

/-- Python `s.split(sep)[0]`: the text before the first occurrence of `sep`
(all of `s` when `sep` is absent). -/
def part0 (sep l : List Char) : List Char :=
  match findSplit sep l with
  | none => l
  | some (b, _) => b

/-- The triple-backtick markdown fence delimiter. -/
def fence : List Char := [btChar, btChar, btChar]

/-- The `json`-tagged markdown fence opener. -/
def fenceJson : List Char := [btChar, btChar, btChar, 'j', 's', 'o', 'n']

/-- The inline fence-stripping logic of `get_recipes` (src/app.py lines
139-148): strip the raw reply; if a json-tagged fence occurs, take
`split('```json')[1].split('```')[0].strip()`; else if any fence occurs, take
`split('```')[1].split('```')[0].strip()`; else keep the stripped text.
`split(sep)[1]` for a string known to contain `sep` is the text after the
first occurrence of `sep` and before the following occurrence, i.e.
`part0 sep` applied to the text after the first occurrence. -/
def cleanReply (raw : List Char) : List Char :=
  let t := pyStrip raw
  match findSplit fenceJson t with
  | some (_, a) => pyStrip (part0 fence (part0 fenceJson a))
  | none =>
    match findSplit fence t with
    | some (_, a) => pyStrip (part0 fence (part0 fence a))
    | none => t

/-- JSON values, covering the fragment of Python `json` relevant to this
program: strings (without `\u` escapes), integer numbers (floats are outside
the scope of the embedding), booleans, null, arrays and objects. -/
inductive Json where
  | null : Json
  | bool (b : Bool) : Json
  | num (n : Int) : Json
  | str (s : String) : Json
  | arr (elems : List Json) : Json
  | obj (fields : List (String × Json)) : Json

/-- JSON insignificant whitespace. -/
def jsonWs (c : Char) : Bool :=
  c == ' ' || c == '\t' || c == '\n' || c == '\r'

/-- Skip JSON whitespace. -/
def skipWs (l : List Char) : List Char := l.dropWhile jsonWs

/-- Decode a single string-escape character (the fragment without `\u`): the
letters n, t, r, b, f map to their control characters, and the quote,
backslash and slash escape to themselves. -/
def escChar (c : Char) : Option Char :=
  match c with
  | 'n' => some (Char.ofNat 10)
  | 't' => some (Char.ofNat 9)
  | 'r' => some (Char.ofNat 13)
  | 'b' => some (Char.ofNat 8)
  | 'f' => some (Char.ofNat 12)
  | _ => if c == '"' || c == '\\' || c == '/' then some c else none

/-- Parse the body of a JSON string after the opening quote, returning the
decoded characters and the remainder after the closing quote. -/
def parseStrChars : List Char → Option (List Char × List Char)
  | [] => none
  | ['\\'] => none
  | '\\' :: e :: rest2 =>
    match escChar e with
    | none => none
    | some d =>
      match parseStrChars rest2 with
      | none => none
      | some (cs, r) => some (d :: cs, r)
  | c :: rest =>
    if c == '"' then some ([], rest)
    else
      match parseStrChars rest with
      | none => none
      | some (cs, r) => some (c :: cs, r)

/-- Digits of a number literal folded into a natural number. -/
def natFromDigits (ds : List Char) : Nat :=
  ds.foldl (fun a c => a * 10 + (c.toNat - 48)) 0

/-- Parse a JSON integer literal (the embedding's numeric fragment). -/
def parseNum (l : List Char) : Option (Json × List Char) :=
  match l with
  | '-' :: r =>
    let ds := r.takeWhile Char.isDigit
    if ds.isEmpty then none
    else some (.num (-(natFromDigits ds : Int)), r.dropWhile Char.isDigit)
  | _ =>
    let ds := l.takeWhile Char.isDigit
    if ds.isEmpty then none
    else some (.num (natFromDigits ds : Int), l.dropWhile Char.isDigit)

/-- Python dict assignment on an association list: replace the value in place
when the key exists, append otherwise. -/
def setK : List (String × Json) → String → Json → List (String × Json)
  | [], k, v => [(k, v)]
  | (k', v') :: rest, k, v =>
    if k' == k then (k, v) :: rest else (k', v') :: setK rest k v

mutual

/-- Fuel-indexed recursive-descent parser for a JSON value, modelling
`json.loads` on the embedded fragment. -/
def parseVal : Nat → List Char → Option (Json × List Char)
  | 0, _ => none
  | f + 1, l =>
    match skipWs l with
    | [] => none
    | c :: rest =>
      if c == '[' then
        match skipWs rest with
        | ']' :: r2 => some (.arr [], r2)
        | _ => parseItems f rest
      else if c == Char.ofNat 123 then
        match skipWs rest with
        | r0 :: r2 =>
          if r0 == Char.ofNat 125 then some (.obj [], r2)
          else parseMembers f rest []
        | [] => none
      else if c == '"' then
        match parseStrChars rest with
        | some (cs, r) => some (.str (String.mk cs), r)
        | none => none
      else if c == 't' then
        if isPre ['r', 'u', 'e'] rest then some (.bool true, rest.drop 3) else none
      else if c == 'f' then
        if isPre ['a', 'l', 's', 'e'] rest then some (.bool false, rest.drop 4) else none
      else if c == 'n' then
        if isPre ['u', 'l', 'l'] rest then some (.null, rest.drop 3) else none
      else parseNum (c :: rest)

/-- Parse one or more array items and the closing bracket. -/
def parseItems : Nat → List Char → Option (Json × List Char)
  | 0, _ => none
  | f + 1, l =>
    match parseVal f l with
    | none => none
    | some (v, r) =>
      match skipWs r with
      | ',' :: r2 =>
        match parseItems f r2 with
        | some (.arr vs, r3) => some (.arr (v :: vs), r3)
        | _ => none
      | ']' :: r2 => some (.arr [v], r2)
      | _ => none

/-- Parse one or more object members and the closing brace; the accumulated
members are folded with `setK`, matching Python dict construction where a
repeated key overwrites in place. -/
def parseMembers : Nat → List Char → List (String × Json) → Option (Json × List Char)
  | 0, _, _ => none
  | f + 1, l, acc =>
    match skipWs l with
    | '"' :: r =>
      match parseStrChars r with
      | none => none
      | some (k, r2) =>
        match skipWs r2 with
        | ':' :: r3 =>
          match parseVal f r3 with
          | none => none
          | some (v, r4) =>
            match skipWs r4 with
            | ',' :: r5 => parseMembers f r5 (setK acc (String.mk k) v)
            | c5 :: r5 =>
              if c5 == Char.ofNat 125 then
                some (.obj (setK acc (String.mk k) v), r5)
              else none
            | [] => none
        | _ => none
    | _ => none

end

/-- Top-level `json.loads` model: strip, parse one value, require only
whitespace afterwards. -/
def parseJsonTop (l : List Char) : Option Json :=
  let t := pyStrip l
  match parseVal (2 * t.length + 2) t with
  | some (v, rest) => if skipWs rest = [] then some v else none
  | none => none

/-- Escape a character for JSON string output, modelling `json.dumps` on the
embedded fragment (quote, backslash and the common control characters). -/
def dumpChar (c : Char) : List Char :=
  if c == '"' then ['\\', '"']
  else if c == '\\' then ['\\', '\\']
  else if c == '\n' then ['\\', 'n']
  else if c == '\t' then ['\\', 't']
  else if c == '\r' then ['\\', 'r']
  else if c == Char.ofNat 8 then ['\\', 'b']
  else if c == Char.ofNat 12 then ['\\', 'f']
  else [c]

/-- Render a JSON string literal. -/
def dumpStr (s : String) : String :=
  String.mk ('"' :: (s.data.flatMap dumpChar) ++ ['"'])

mutual

/-- Serialize a JSON value to text, modelling Python `json.dumps` with its
default separators. -/
def jsonDump : Json → String
  | .null => "null"
  | .bool true => "true"
  | .bool false => "false"
  | .num n => toString n
  | .str s => dumpStr s
  | .arr elems => "[" ++ jsonDumpList elems ++ "]"
  | .obj fields => String.mk [Char.ofNat 123] ++ jsonDumpObj fields ++ String.mk [Char.ofNat 125]

/-- Serialize array elements, comma-space separated. -/
def jsonDumpList : List Json → String
  | [] => ""
  | [x] => jsonDump x
  | x :: y :: rest => jsonDump x ++ ", " ++ jsonDumpList (y :: rest)

/-- Serialize object members, comma-space separated. -/
def jsonDumpObj : List (String × Json) → String
  | [] => ""
  | [(k, v)] => dumpStr k ++ ": " ++ jsonDump v
  | (k, v) :: m :: rest => dumpStr k ++ ": " ++ jsonDump v ++ ", " ++ jsonDumpObj (m :: rest)

end

/-- Python exceptions distinguished by the program's `except` clauses. -/
inductive PyExc where
  | keyError (k : String)
  | typeError (m : String)
  | mysqlError (m : String)
  | jsonDecodeError (m : String)

/-- Python `str(e)` on a modelled exception. -/
def excMsg : PyExc → String
  | .keyError k => k
  | .typeError m => m
  | .mysqlError m => m
  | .jsonDecodeError m => m

/-- A committed row of the `recipes` table (src/app.py lines 60-71).  The
`ingredients` and `instructions` columns hold JSON text; `created_at` is the
store tick at insert time (CURRENT_TIMESTAMP under the spec's monotonicity
invariant); `id` is the AUTO_INCREMENT key.  The table has no image_url
column. -/
structure Row where
  id : Nat
  title : Json
  ingredients : String
  instructions : String
  prep_time : Json
  difficulty : Json
  source_ingredients : String
  created_at : Nat

/-- The durable store: auto-increment/clock tick and the committed rows in
insertion order. -/
structure DbState where
  tick : Nat
  rows : List Row

/-- Column names of the CREATE TABLE statement (src/app.py lines 60-71). -/
def createTableColumns : List String :=
  ["id", "title", "ingredients", "instructions", "prep_time", "difficulty",
   "source_ingredients", "created_at"]

/-- Column names of the INSERT statement (src/app.py lines 159-161). -/
def insertColumns : List String :=
  ["title", "ingredients", "instructions", "prep_time", "difficulty",
   "source_ingredients"]

/-- A row as returned by the read endpoints after `json.loads` on the JSON
text columns. -/
structure DecRecipe where
  id : Nat
  title : Json
  ingredients : Json
  instructions : Json
  prep_time : Json
  difficulty : Json
  source_ingredients : String
  created_at : Nat

/-- The JSON response bodies the handlers can produce.  Every constructor
except `unhandled` corresponds to a JSON body built by an explicit `jsonify`
call in src/app.py; `unhandled` marks an exception escaping a handler to the
framework's generic fault response. -/
inductive Resp where
  | ok (recipes : List Json) (count : Nat)
  | invalidInput
  | aiError (msg : String)
  | parseError (raw_response : String)
  | dbError (msg : String)
  | serverError (msg : String)
  | okList (recipes : List DecRecipe) (count : Nat)
  | okRecipe (recipe : DecRecipe)
  | notFound
  | healthy (total : Nat)
  | unhealthy (msg : String)
  | okModels (names : List String)
  | modelsErr (msg : String)
  | unhandled (e : PyExc)

/-- True when the response is a JSON body produced by the handler itself
(success body or error envelope), false for an escaped exception. -/
def handledResp : Resp → Bool
  | .unhandled _ => false
  | _ => true

/-- True for the POST success body. -/
def respIsOk : Resp → Bool
  | .ok _ _ => true
  | _ => false

/-- True for the GET-list success body. -/
def respIsOkList : Resp → Bool
  | .okList _ _ => true
  | _ => false

/-- True for the invalid-input 400 body. -/
def respIsInvalidInput : Resp → Bool
  | .invalidInput => true
  | _ => false

/-- True for the generic server-error envelope. -/
def respIsServerError : Resp → Bool
  | .serverError _ => true
  | _ => false

/-- True for the responses of `get_recipe` whose row fetch completed: the
found-recipe body and the not-found body. -/
def respIsFetched : Resp → Bool
  | .okRecipe _ => true
  | .notFound => true
  | _ => false

/-- True for the healthy body. -/
def respIsHealthy : Resp → Bool
  | .healthy _ => true
  | _ => false

/-- Observable outcome of one request: response body, HTTP status, whether the
external AI call was made, how many store connections were acquired and
released, how many INSERT statements were executed, and the resulting durable
store. -/
structure Outcome where
  resp : Resp
  status : Nat
  aiCalled : Bool
  connOpened : Nat
  connClosed : Nat
  insertAttempts : Nat
  db : DbState

/-- Fault oracle for one request: the AI call's result, whether the store
connection can be acquired, whether the read statement issued on an acquired
connection succeeds (the SELECT of the read endpoints and of the health
check), and whether the i-th INSERT statement succeeds. -/
structure Oracle where
  ai : Except String String
  connectOk : Bool
  queryOk : Bool
  insertOk : Nat → Bool

/-- Message attached to a modelled connection failure. -/
def connectFailMsg : String := "connection failed"

/-- Message attached to a modelled failure of a statement executed on an
already-acquired connection. -/
def queryFailMsg : String := "query failed"

/-- Message attached to a modelled INSERT failure. -/
def dbFailMsg : String := "insert failed"

/-- First-match lookup in an object's fields (fields are duplicate-free by
construction, so this is Python dict access). -/
def lookupF : List (String × Json) → String → Option Json
  | [], _ => none
  | (k', v) :: rest, k => if k' == k then some v else lookupF rest k

/-- Field access on a JSON value. -/
def getField : Json → String → Option Json
  | .obj flds, k => lookupF flds k
  | _, _ => none

/-- Python subscript `recipe[k]`: KeyError on a dict lacking the key,
TypeError on non-dict values. -/
def pyGet (j : Json) (k : String) : Except PyExc Json :=
  match j with
  | .obj flds =>
    match lookupF flds k with
    | some v => .ok v
    | none => .error (.keyError k)
  | _ => .error (.typeError "not subscriptable")

/-- Python iteration `for recipe in recipes`: arrays yield elements, strings
yield one-character strings, dicts yield their keys, scalars raise
TypeError. -/
def pyIter (j : Json) : Except PyExc (List Json) :=
  match j with
  | .arr xs => .ok xs
  | .str s => .ok (s.data.map (fun c => .str (String.mk [c])))
  | .obj flds => .ok (flds.map (fun kv => Json.str kv.1))
  | _ => .error (.typeError "not iterable")

/-- Python dict assignment `j[k] = v` (only reached on dict values in the
program). -/
def setField (j : Json) (k : String) (v : Json) : Json :=
  match j with
  | .obj flds => .obj (setK flds k v)
  | _ => j

/-- The two assignments `recipe['id'] = recipe_id` and
`recipe['source_ingredients'] = ingredients` (src/app.py lines 172-173). -/
def mergeSaved (r : Json) (rid : Nat) (src : String) : Json :=
  setField (setField r "id" (.num rid)) "source_ingredients" (.str src)

/-- The row written by one execution of the INSERT statement (src/app.py lines
159-169): ingredients and instructions serialized with `json.dumps`, title,
prep_time and difficulty verbatim, source_ingredients the exact caller input,
id and created_at assigned from the store tick. -/
def insertRowStep (tick : Nat) (tt ing ins pt df : Json) (src : String) : Row :=
  ⟨tick, tt, jsonDump ing, jsonDump ins, pt, df, src, tick⟩

/-- Evaluation of the parameter tuple of the INSERT statement, in source
order: the five subscripts `recipe['title']`, `recipe['ingredients']`,
`recipe['instructions']`, `recipe['prep_time']`, `recipe['difficulty']`. -/
def drawVals (r : Json) : Except PyExc (Json × Json × Json × Json × Json) := do
  let tt ← pyGet r "title"
  let ing ← pyGet r "ingredients"
  let ins ← pyGet r "instructions"
  let pt ← pyGet r "prep_time"
  let df ← pyGet r "difficulty"
  .ok (tt, ing, ins, pt, df)

/-- True when all five required draft fields are present. -/
def goodDraft (r : Json) : Bool :=
  match drawVals r with
  | .ok _ => true
  | .error _ => false

/-- The insert loop of `get_recipes` (src/app.py lines 158-175) over the
still-open connection: `i` counts executed INSERT statements, `tick` is the
store tick, `pending` the uncommitted rows, `saved` the `saved_recipes` list.
Returns the loop result together with the number of INSERT executions. -/
def insertLoop (o : Oracle) (src : String) :
    List Json → Nat → Nat → List Row → List Json →
    (Except PyExc (List Row × List Json × Nat)) × Nat
  | [], i, tick, pending, saved => (.ok (pending, saved, tick), i)
  | r :: rest, i, tick, pending, saved =>
    match drawVals r with
    | .error e => (.error e, i)
    | .ok (tt, ing, ins, pt, df) =>
      if o.insertOk i then
        insertLoop o src rest (i + 1) (tick + 1)
          (pending ++ [insertRowStep tick tt ing ins pt df src])
          (saved ++ [mergeSaved r tick src])
      else
        (.error (.mysqlError dbFailMsg), i + 1)

/-- The POST /api/recipes handler `get_recipes` (src/app.py lines 99-205).
Control flow follows the source: falsiness check on `ingredients`; AI call; 
fence stripping and `json.loads`; connection; insert loop; `conn.commit()`
and `conn.close()` only after the whole loop; `except` clauses map
JSONDecodeError to the diagnostic body with `response.text[:500]`,
mysql errors to the database envelope, and anything else to the generic
server-error envelope. -/
def get_recipes (ing : String) (o : Oracle) (db : DbState) : Outcome :=
  if ing = "" then ⟨.invalidInput, 400, false, 0, 0, 0, db⟩
  else
    match o.ai with
    | .error m => ⟨.aiError ("AI service error: " ++ m), 500, true, 0, 0, 0, db⟩
    | .ok raw =>
      match parseJsonTop (cleanReply raw.data) with
      | none =>
        ⟨.parseError (String.mk (raw.data.take 500)), 500, true, 0, 0, 0, db⟩
      | some parsed =>
        if o.connectOk then
          match pyIter parsed with
          | .error e =>
            ⟨.serverError ("Server error: " ++ excMsg e), 500, true, 1, 0, 0, db⟩
          | .ok elems =>
            match insertLoop o ing elems 0 db.tick [] [] with
            | (.error (.mysqlError m), att) =>
              ⟨.dbError ("Database error: " ++ m), 500, true, 1, 0, att, db⟩
            | (.error e, att) =>
              ⟨.serverError ("Server error: " ++ excMsg e), 500, true, 1, 0, att, db⟩
            | (.ok (pending, saved, tick2), att) =>
              ⟨.ok saved saved.length, 200, true, 1, 1, att, ⟨tick2, db.rows ++ pending⟩⟩
        else
          ⟨.dbError ("Database error: " ++ connectFailMsg), 500, true, 0, 0, 0, db⟩

/-- Descending insertion by `created_at` (the comparison of ORDER BY
created_at DESC). -/
def insDesc (r : Row) : List Row → List Row
  | [] => [r]
  | x :: xs => if x.created_at < r.created_at then r :: x :: xs else x :: insDesc r xs

/-- The result order of `SELECT ... ORDER BY created_at DESC`. -/
def insSortDesc : List Row → List Row
  | [] => []
  | r :: rest => insDesc r (insSortDesc rest)

/-- The SELECT of `list_recipes` (src/app.py lines 214-219): all rows, newest
first. -/
def listAll (db : DbState) : List Row := insSortDesc db.rows

/-- Per-row post-processing of the read endpoints (src/app.py lines 224-227
and 259-262): `json.loads` on the two JSON text columns; failure raises
JSONDecodeError. -/
def decodeRow (r : Row) : Except PyExc DecRecipe :=
  match parseJsonTop r.ingredients.data with
  | none => .error (.jsonDecodeError "Expecting value")
  | some ing =>
    match parseJsonTop r.instructions.data with
    | none => .error (.jsonDecodeError "Expecting value")
    | some ins =>
      .ok ⟨r.id, r.title, ing, ins, r.prep_time, r.difficulty,
           r.source_ingredients, r.created_at⟩

/-- Decode every fetched row in order. -/
def decodeRows : List Row → Except PyExc (List DecRecipe)
  | [] => .ok []
  | r :: rest => do
    let d ← decodeRow r
    let ds ← decodeRows rest
    .ok (d :: ds)

/-- The GET /api/recipes handler `list_recipes` (src/app.py lines 207-239).
Its only `except` clause catches `mysql.connector.Error`, both from the
connection attempt and from the SELECT on the acquired connection; on the
latter path the connection is already open and the handler returns without
closing it.  A JSONDecodeError from a corrupt stored column would escape as
`unhandled`.  The connection is closed only after successful decoding. -/
def list_recipes (o : Oracle) (db : DbState) : Outcome :=
  if o.connectOk then
    if o.queryOk then
      match decodeRows (listAll db) with
      | .error e => ⟨.unhandled e, 500, false, 1, 0, 0, db⟩
      | .ok recs => ⟨.okList recs recs.length, 200, false, 1, 1, 0, db⟩
    else
      ⟨.dbError ("Database error: " ++ queryFailMsg), 500, false, 1, 0, 0, db⟩
  else
    ⟨.dbError ("Database error: " ++ connectFailMsg), 500, false, 0, 0, 0, db⟩

/-- The WHERE id = %s row fetch of `get_recipe`. -/
def findById : List Row → Nat → Option Row
  | [], _ => none
  | r :: rest, rid => if r.id == rid then some r else findById rest rid

/-- The GET /api/recipes/id handler `get_recipe` (src/app.py lines 241-268).
When the SELECT fails on the acquired connection, the `except` clause returns
the database envelope without closing the connection; when the fetch
completes, the cursor and connection are closed before the row is inspected,
so both the found and not-found paths close.  A JSONDecodeError from a
corrupt stored column would escape as `unhandled` after the close. -/
def get_recipe (rid : Nat) (o : Oracle) (db : DbState) : Outcome :=
  if o.connectOk then
    if o.queryOk then
      match findById db.rows rid with
      | some r =>
        match decodeRow r with
        | .error e => ⟨.unhandled e, 500, false, 1, 1, 0, db⟩
        | .ok rec => ⟨.okRecipe rec, 200, false, 1, 1, 0, db⟩
      | none => ⟨.notFound, 404, false, 1, 1, 0, db⟩
    else
      ⟨.dbError ("Database error: " ++ queryFailMsg), 500, false, 1, 0, 0, db⟩
  else
    ⟨.dbError ("Database error: " ++ connectFailMsg), 500, false, 0, 0, 0, db⟩

/-- The GET /api/health handler `health_check` (src/app.py lines 280-302):
`except Exception` converts any store fault into the unhealthy envelope —
both a connection failure (nothing acquired) and a failure of the COUNT
query on the acquired connection, after which the handler returns without
closing the connection. -/
def health_check (o : Oracle) (db : DbState) : Outcome :=
  if o.connectOk then
    if o.queryOk then ⟨.healthy db.rows.length, 200, false, 1, 1, 0, db⟩
    else ⟨.unhealthy queryFailMsg, 500, false, 1, 0, 0, db⟩
  else ⟨.unhealthy connectFailMsg, 500, false, 0, 0, 0, db⟩

/-- The GET /api/models handler `list_models` (src/app.py lines 270-278):
`except Exception` converts any provider fault into an error envelope,
returned with status 200. -/
def list_models (r : Except String (List String)) : Resp :=
  match r with
  | .ok names => .okModels names
  | .error m => .modelsErr m

/-- A standalone committed insert (one INSERT followed by commit), used to
state store-level ordering properties. -/
def dbInsertRow (db : DbState) (tt : Json) (ingT insT : String) (pt df : Json)
    (src : String) : DbState × Nat :=
  (⟨db.tick + 1, db.rows ++ [⟨db.tick, tt, ingT, insT, pt, df, src, db.tick⟩]⟩, db.tick)

/-- Store well-formedness for ordering: created_at strictly increases along
the committed rows and stays below the tick (the spec's invariant that
created_at monotonically reflects insertion order). -/
def WForder (db : DbState) : Prop :=
  List.Pairwise (fun a b => a.created_at < b.created_at) db.rows ∧
  ∀ r ∈ db.rows, r.created_at < db.tick

/-- Store well-formedness for the read path: every committed row's JSON text
columns parse.  This is enforced by the store itself: the `ingredients` and
`instructions` columns are MySQL JSON columns, which reject invalid JSON at
insert time. -/
def WFjson (db : DbState) : Prop :=
  ∀ r ∈ db.rows, (parseJsonTop r.ingredients.data).isSome ∧
    (parseJsonTop r.instructions.data).isSome

theorem lookupF_setK_same : ∀ (flds : List (String × Json)) (k : String) (v : Json),
    lookupF (setK flds k v) k = some v
  | [], k, v => by simp [setK, lookupF]
  | (k1, v1) :: rest, k, v => by
    by_cases h : k1 = k
    · simp [setK, h, lookupF]
    · have hb : (k1 == k) = false := by simpa using h
      simp [setK, hb, lookupF, lookupF_setK_same rest k v]

theorem lookupF_setK_ne : ∀ (flds : List (String × Json)) (k1 k : String) (v : Json),
    k1 ≠ k → lookupF (setK flds k1 v) k = lookupF flds k
  | [], k1, k, v, h => by
    have hb : (k1 == k) = false := by simpa using h
    simp [setK, lookupF, hb]
  | (k2, v2) :: rest, k1, k, v, h => by
    by_cases h2 : k2 = k1
    · have hb : (k1 == k) = false := by simpa using h
      simp [setK, h2, lookupF, hb]
    · have hb2 : (k2 == k1) = false := by simpa using h2
      simp [setK, hb2, lookupF, lookupF_setK_ne rest k1 k v h]

/-- The id assigned to a returned recipe object is the store-assigned row id
(the value of `cursor.lastrowid` captured in `recipe['id']`). -/
theorem getField_mergeSaved_id (flds : List (String × Json)) (rid : Nat) (src : String) :
    getField (mergeSaved (.obj flds) rid src) "id" = some (.num rid) := by
  simp only [mergeSaved, setField, getField]
  rw [lookupF_setK_ne _ _ _ _ (by decide), lookupF_setK_same]

/-- The source_ingredients echoed on a returned recipe object is the exact
caller input. -/
theorem getField_mergeSaved_src (flds : List (String × Json)) (rid : Nat) (src : String) :
    getField (mergeSaved (.obj flds) rid src) "source_ingredients" = some (.str src) := by
  simp only [mergeSaved, setField, getField]
  rw [lookupF_setK_same]

/-- C1 (amended): for the empty ingredients input (the only input the
falsiness check `if not ingredients` rejects), `get_recipes` returns the
InvalidInput 400 body, makes no AI call, acquires no connection, executes no
INSERT and leaves the store unchanged.  The original claim extended this to
whitespace-only input, which the code does not trim (see the
counterexample). -/
theorem get_recipes_empty_input (o : Oracle) (db : DbState) :
    get_recipes "" o db = ⟨.invalidInput, 400, false, 0, 0, 0, db⟩ := rfl

/-- C1 counterexample: a whitespace-only ingredients string is truthy in
Python, so the handler proceeds to the external AI call instead of returning
the InvalidInput response. -/
theorem get_recipes_whitespace_not_rejected :
    (get_recipes " " ⟨.error "boom", true, true, fun _ => true⟩ ⟨1, []⟩).aiCalled = true ∧
    respIsInvalidInput (get_recipes " " ⟨.error "boom", true, true, fun _ => true⟩ ⟨1, []⟩).resp = false :=
  ⟨rfl, rfl⟩

/-- C4: whenever the extracted AI reply fails to parse as JSON, the handler
returns the MalformedAIResponse body whose diagnostic is `response.text[:500]`
(a prefix of at most 500 characters of the raw reply), with no connection
acquired, no INSERT executed and the store unchanged. -/
theorem get_recipes_parse_failure (ing raw : String) (o : Oracle) (db : DbState)
    (hing : ing ≠ "") (hai : o.ai = .ok raw)
    (hparse : parseJsonTop (cleanReply raw.data) = none) :
    get_recipes ing o db =
      ⟨.parseError (String.mk (raw.data.take 500)), 500, true, 0, 0, 0, db⟩ ∧
    raw.data.take 500 ++ raw.data.drop 500 = raw.data ∧
    (raw.data.take 500).length ≤ 500 := by
  refine ⟨?_, List.take_append_drop 500 raw.data, ?_⟩
  · simp [get_recipes, hai, hparse, hing]
  · simp

theorem get_recipes_parse_failure_witness :
    ("x" : String) ≠ "" ∧
    get_recipes "x" ⟨.ok "oops", true, true, fun _ => true⟩ ⟨1, []⟩ =
      ⟨.parseError (String.mk ("oops".data.take 500)), 500, true, 0, 0, 0, ⟨1, []⟩⟩ :=
  ⟨by decide,
   (get_recipes_parse_failure "x" "oops" ⟨.ok "oops", true, true, fun _ => true⟩ ⟨1, []⟩
      (by decide) rfl rfl).1⟩

/-- C6 (amended): one execution of the INSERT statement serializes the
ingredients and instructions sequences with `json.dumps` into the JSON text
columns, stores title, prep_time and difficulty verbatim, sets
source_ingredients to the exact original caller input, assigns the
store-assigned identifier as both the row id and the id echoed on the
returned recipe object.  The original claim also had image_url stored
verbatim; the table and the INSERT statement have no image_url column (see
the counterexample), so that part is dropped. -/
theorem insert_serializes (tick : Nat) (tt ing ins pt df : Json) (src : String)
    (flds : List (String × Json)) :
    (insertRowStep tick tt ing ins pt df src).ingredients = jsonDump ing ∧
    (insertRowStep tick tt ing ins pt df src).instructions = jsonDump ins ∧
    (insertRowStep tick tt ing ins pt df src).title = tt ∧
    (insertRowStep tick tt ing ins pt df src).prep_time = pt ∧
    (insertRowStep tick tt ing ins pt df src).difficulty = df ∧
    (insertRowStep tick tt ing ins pt df src).source_ingredients = src ∧
    (insertRowStep tick tt ing ins pt df src).id = tick ∧
    getField (mergeSaved (.obj flds) tick src) "id" = some (.num tick) :=
  ⟨rfl, rfl, rfl, rfl, rfl, rfl, rfl, getField_mergeSaved_id flds tick src⟩

/-- C6 counterexample: neither the CREATE TABLE statement nor the INSERT
statement has an image_url column, so image_url is not stored at all, let
alone verbatim. -/
theorem no_image_url_column :
    ("image_url" ∈ insertColumns → False) ∧
    ("image_url" ∈ createTableColumns → False) := by
  constructor <;> decide

theorem pySpace_nl : pySpace '\n' = true := rfl

theorem pySpace_bt : pySpace btChar = false := rfl

theorem bt_beq_bt : (btChar == btChar) = true := rfl

theorem bt_beq_nl : (btChar == '\n') = false := rfl

theorem j_beq_nl : (('j' : Char) == '\n') = false := rfl

theorem lstrip_cons_ws {c : Char} (l : List Char) (h : pySpace c = true) :
    lstrip (c :: l) = lstrip l := by
  simp [lstrip, List.dropWhile_cons, h]

theorem rstrip_append_ws {c : Char} (l : List Char) (h : pySpace c = true) :
    rstrip (l ++ [c]) = rstrip l := by
  simp [rstrip, List.reverse_append, List.dropWhile_cons, h]

theorem rstrip_cons_split (c : Char) (l : List Char) :
    rstrip (c :: l) = [] ∨ rstrip (c :: l) = c :: rstrip l := by
  by_cases h : (List.dropWhile pySpace l.reverse).isEmpty = true
  · by_cases h2 : pySpace c = true
    · left
      simp [rstrip, List.reverse_cons, List.dropWhile_append, h, List.dropWhile_cons, h2]
    · right
      have h3 : pySpace c = false := by simpa using h2
      have hl : List.dropWhile pySpace l.reverse = [] := by simpa using h
      simp [rstrip, List.reverse_cons, List.dropWhile_append, h, List.dropWhile_cons, h3, hl]
  · right
    simp [rstrip, List.reverse_cons, List.dropWhile_append, h]

/-- Stripping absorbs a single leading and trailing newline around arbitrary
text. -/
theorem strip_wrap (l : List Char) :
    pyStrip ('\n' :: l ++ ['\n']) = pyStrip l := by
  have h1 : rstrip ('\n' :: (l ++ ['\n'])) = rstrip ('\n' :: l) := by
    have := rstrip_append_ws ('\n' :: l) pySpace_nl
    simpa using this
  show lstrip (rstrip ('\n' :: (l ++ ['\n']))) = lstrip (rstrip l)
  rw [h1]
  rcases rstrip_cons_split '\n' l with h2 | h2
  · rw [h2]
    have h4 : List.dropWhile pySpace (l.reverse ++ ['\n']) = [] := by
      have h3 := congrArg List.reverse h2
      simpa [rstrip, List.reverse_cons] using h3
    have h5 : List.dropWhile pySpace l.reverse = [] := by
      by_cases h7 : (List.dropWhile pySpace l.reverse).isEmpty = true
      · simpa using h7
      · rw [List.dropWhile_append, if_neg h7] at h4
        exact absurd h4 (by simp)
    have h8 : rstrip l = [] := by simp [rstrip, h5]
    rw [h8]
  · rw [h2, lstrip_cons_ws _ pySpace_nl]

/-- A backtick-delimited text is invariant under stripping. -/
theorem strip_btwrap (x : List Char) :
    pyStrip (btChar :: x ++ [btChar]) = btChar :: x ++ [btChar] := by
  have hrev : (btChar :: (x ++ [btChar])).reverse = btChar :: (x.reverse ++ [btChar]) := by
    simp
  have h1 : rstrip (btChar :: (x ++ [btChar])) = btChar :: (x ++ [btChar]) := by
    rw [rstrip, hrev, List.dropWhile_cons, if_neg (by simp [pySpace_bt]), ← hrev,
      List.reverse_reverse]
  show lstrip (rstrip (btChar :: (x ++ [btChar]))) = btChar :: (x ++ [btChar])
  rw [h1, lstrip, List.dropWhile_cons, if_neg (by simp [pySpace_bt])]

theorem dropWhile_fix_head {p : Char → Bool} {c : Char} {x : List Char}
    (h : List.dropWhile p (c :: x) = c :: x) : p c = false := by
  by_cases hc : p c = true
  · rw [List.dropWhile_cons, if_pos hc] at h
    have hlen : (List.dropWhile p x).length ≤ x.length := (List.dropWhile_sublist p).length_le
    have : (c :: x).length ≤ x.length := h ▸ hlen
    simp at this
  · simpa using hc

theorem rstrip_idem (l : List Char) : rstrip (rstrip l) = rstrip l := by
  simp [rstrip, List.reverse_reverse, List.dropWhile_idempotent]

theorem rstrip_lstrip_of_fix {y : List Char} (hy : rstrip y = y) :
    rstrip (lstrip y) = lstrip y := by
  have hyr : List.dropWhile pySpace y.reverse = y.reverse := by
    have := congrArg List.reverse hy
    simpa [rstrip, List.reverse_reverse] using this
  rcases hd : List.dropWhile pySpace y with _ | ⟨c, w⟩
  · simp [lstrip, hd, rstrip]
  · have hsplit : List.takeWhile pySpace y ++ (c :: w) = y := by
      rw [← hd]; exact List.takeWhile_append_dropWhile pySpace y
    rcases hrev2 : (c :: w).reverse with _ | ⟨e, z⟩
    · exact absurd (congrArg List.length hrev2) (by simp)
    · have hyrev : y.reverse = e :: (z ++ (List.takeWhile pySpace y).reverse) := by
        conv_lhs => rw [← hsplit]
        rw [List.reverse_append, hrev2]
        simp
      have hpe : pySpace e = false := by
        apply dropWhile_fix_head (x := z ++ (List.takeWhile pySpace y).reverse)
        rw [← hyrev]
        exact hyr
      have hfix : List.dropWhile pySpace (c :: w).reverse = (c :: w).reverse := by
        rw [hrev2, List.dropWhile_cons, if_neg (by simp [hpe])]
      show rstrip (List.dropWhile pySpace y) = List.dropWhile pySpace y
      rw [hd, rstrip, hfix, List.reverse_reverse]

/-- Python strip is idempotent. -/
theorem pyStrip_idem (l : List Char) : pyStrip (pyStrip l) = pyStrip l := by
  have h1 : rstrip (lstrip (rstrip l)) = lstrip (rstrip l) :=
    rstrip_lstrip_of_fix (rstrip_idem l)
  show lstrip (rstrip (lstrip (rstrip l))) = lstrip (rstrip l)
  rw [h1, lstrip, lstrip, List.dropWhile_idempotent]

/-- Parsing after stripping is parsing: `parseJsonTop` strips its input
first, and stripping is idempotent. -/
theorem parseJsonTop_pyStrip (l : List Char) :
    parseJsonTop (pyStrip l) = parseJsonTop l := by
  simp [parseJsonTop, pyStrip_idem]

theorem isPre_append_self : ∀ (s t : List Char), isPre s (s ++ t) = true
  | [], _ => rfl
  | c :: cs, t => by simp [isPre, isPre_append_self cs t]

theorem fs_none_clean (sep2 : List Char) :
    ∀ (w : List Char), (∀ c ∈ w, c ≠ btChar) → findSplit (btChar :: sep2) w = none
  | [], _ => rfl
  | c :: cs, h => by
    have hc : (btChar == c) = false := by
      have := (h c (by simp)).symm
      simpa using this
    have hpre : isPre (btChar :: sep2) (c :: cs) = false := by simp [isPre, hc]
    simp [findSplit, hpre, fs_none_clean sep2 cs (fun x hx => h x (by simp [hx]))]

theorem fs_fence_self (rest : List Char) :
    findSplit fence (fence ++ rest) = some ([], rest) := by
  have hp : isPre fence (btChar :: btChar :: btChar :: rest) = true :=
    isPre_append_self fence rest
  show findSplit fence (btChar :: btChar :: btChar :: rest) = some ([], rest)
  have hlen : fence.length = 3 := rfl
  simp [findSplit, hp, hlen]

theorem fs_fenceJson_self (rest : List Char) :
    findSplit fenceJson (fenceJson ++ rest) = some ([], rest) := by
  have hp : isPre fenceJson (btChar :: btChar :: btChar :: 'j' :: 's' :: 'o' :: 'n' :: rest) = true :=
    isPre_append_self fenceJson rest
  show findSplit fenceJson (btChar :: btChar :: btChar :: 'j' :: 's' :: 'o' :: 'n' :: rest) =
    some ([], rest)
  have hlen : fenceJson.length = 7 := rfl
  simp [findSplit, hp, hlen]

theorem fs_fence_after_clean :
    ∀ (u v : List Char), (∀ c ∈ u, c ≠ btChar) →
      findSplit fence (u ++ (fence ++ v)) = some (u, v)
  | [], v, _ => by simpa using fs_fence_self v
  | c :: u2, v, h => by
    have hc : (btChar == c) = false := by
      have := (h c (by simp)).symm
      simpa using this
    have hpre : isPre fence (c :: (u2 ++ (fence ++ v))) = false := by
      simp [fence, isPre, hc]
    have ih := fs_fence_after_clean u2 v (fun x hx => h x (by simp [hx]))
    simp [findSplit, hpre, ih]

theorem fsJson_none_tail :
    ∀ (u : List Char), (∀ c ∈ u, c ≠ btChar) → findSplit fenceJson (u ++ fence) = none
  | [], _ => by decide
  | c :: u2, h => by
    have hc : (btChar == c) = false := by
      have := (h c (by simp)).symm
      simpa using this
    have hpre : isPre fenceJson (c :: (u2 ++ fence)) = false := by
      simp [fenceJson, isPre, hc]
    simp [findSplit, hpre, fsJson_none_tail u2 (fun x hx => h x (by simp [hx]))]

theorem fsJson_none_plainfence (s : List Char) (h : ∀ c ∈ s, c ≠ btChar) :
    findSplit fenceJson (fence ++ ('\n' :: (s ++ ('\n' :: fence)))) = none := by
  have hu : ∀ c ∈ (s ++ ['\n']), c ≠ btChar := by
    intro c hc
    rcases List.mem_append.mp hc with hc1 | hc2
    · exact h c hc1
    · simp at hc2
      rw [hc2]
      decide
  have ht : findSplit fenceJson ((s ++ ['\n']) ++ fence) = none := fsJson_none_tail _ hu
  have ht2 : findSplit fenceJson (s ++ ('\n' :: fence)) = none := by
    simpa [List.append_assoc] using ht
  show findSplit fenceJson
    (btChar :: btChar :: btChar :: '\n' :: (s ++ ('\n' :: fence))) = none
  have ht3 : findSplit [btChar, btChar, btChar, 'j', 's', 'o', 'n'] (s ++ '\n' :: fence) = none :=
    ht2
  simp [findSplit, isPre, fenceJson, bt_beq_bt, j_beq_nl, bt_beq_nl, ht3]

theorem mem_of_pyStrip {c : Char} {l : List Char} (h : c ∈ pyStrip l) : c ∈ l := by
  have h1 : c ∈ rstrip l := List.Sublist.mem h (List.dropWhile_sublist pySpace)
  have h2 : c ∈ List.dropWhile pySpace l.reverse := by
    simpa [rstrip, List.mem_reverse] using h1
  have h3 : c ∈ l.reverse := List.Sublist.mem h2 (List.dropWhile_sublist pySpace)
  simpa [List.mem_reverse] using h3

theorem nlcons_clean {s : List Char} (h : ∀ c ∈ s, c ≠ btChar) :
    ∀ c ∈ ('\n' :: (s ++ ['\n'])), c ≠ btChar := by
  intro c hc
  rcases List.mem_cons.mp hc with hc1 | hc2
  · rw [hc1]; decide
  · rcases List.mem_append.mp hc2 with hc3 | hc4
    · exact h c hc3
    · simp at hc4
      rw [hc4]
      decide

/-- The json-tagged fenced form extracts to the stripped payload. -/
theorem cleanReply_jsonfenced (s : List Char) (h : ∀ c ∈ s, c ≠ btChar) :
    cleanReply (fenceJson ++ ('\n' :: (s ++ ('\n' :: fence)))) = pyStrip s := by
  have hu := nlcons_clean h
  have hstrip : pyStrip (fenceJson ++ ('\n' :: (s ++ ('\n' :: fence)))) =
      fenceJson ++ ('\n' :: (s ++ ('\n' :: fence))) := by
    have hx := strip_btwrap ([btChar, btChar, 'j', 's', 'o', 'n', '\n'] ++ (s ++ ['\n', btChar, btChar]))
    have hshape : btChar :: ([btChar, btChar, 'j', 's', 'o', 'n', '\n'] ++ (s ++ ['\n', btChar, btChar])) ++ [btChar] =
        fenceJson ++ ('\n' :: (s ++ ('\n' :: fence))) := by
      simp [fenceJson, fence]
    rw [hshape] at hx
    exact hx
  have hfind : findSplit fenceJson (fenceJson ++ ('\n' :: (s ++ ('\n' :: fence)))) =
      some ([], '\n' :: (s ++ ('\n' :: fence))) := fs_fenceJson_self _
  have hP1 : part0 fenceJson ('\n' :: (s ++ ('\n' :: fence))) = '\n' :: (s ++ ('\n' :: fence)) := by
    have hn := fsJson_none_tail ('\n' :: (s ++ ['\n'])) hu
    have hn2 : findSplit fenceJson ('\n' :: (s ++ ('\n' :: fence))) = none := by
      simpa [List.append_assoc] using hn
    simp [part0, hn2]
  have hP2 : part0 fence ('\n' :: (s ++ ('\n' :: fence))) = '\n' :: (s ++ ['\n']) := by
    have hf := fs_fence_after_clean ('\n' :: (s ++ ['\n'])) [] hu
    have hf2 : findSplit fence ('\n' :: (s ++ ('\n' :: fence))) =
        some ('\n' :: (s ++ ['\n']), []) := by
      simpa [List.append_assoc] using hf
    simp [part0, hf2]
  simp only [cleanReply, hstrip, hfind, hP1, hP2]
  have hw := strip_wrap s
  simpa using hw

/-- The plain fenced form extracts to the stripped payload. -/
theorem cleanReply_plainfenced (s : List Char) (h : ∀ c ∈ s, c ≠ btChar) :
    cleanReply (fence ++ ('\n' :: (s ++ ('\n' :: fence)))) = pyStrip s := by
  have hu := nlcons_clean h
  have hstrip : pyStrip (fence ++ ('\n' :: (s ++ ('\n' :: fence)))) =
      fence ++ ('\n' :: (s ++ ('\n' :: fence))) := by
    have hx := strip_btwrap ([btChar, btChar, '\n'] ++ (s ++ ['\n', btChar, btChar]))
    have hshape : btChar :: ([btChar, btChar, '\n'] ++ (s ++ ['\n', btChar, btChar])) ++ [btChar] =
        fence ++ ('\n' :: (s ++ ('\n' :: fence))) := by
      simp [fence]
    rw [hshape] at hx
    exact hx
  have hjn := fsJson_none_plainfence s h
  have hfind : findSplit fence (fence ++ ('\n' :: (s ++ ('\n' :: fence)))) =
      some ([], '\n' :: (s ++ ('\n' :: fence))) := fs_fence_self _
  have hP2 : part0 fence ('\n' :: (s ++ ('\n' :: fence))) = '\n' :: (s ++ ['\n']) := by
    have hf := fs_fence_after_clean ('\n' :: (s ++ ['\n'])) [] hu
    have hf2 : findSplit fence ('\n' :: (s ++ ('\n' :: fence))) =
        some ('\n' :: (s ++ ['\n']), []) := by
      simpa [List.append_assoc] using hf
    simp [part0, hf2]
  have hP3 : part0 fence ('\n' :: (s ++ ['\n'])) = '\n' :: (s ++ ['\n']) := by
    have hn : findSplit fence ('\n' :: (s ++ ['\n'])) = none := fs_none_clean _ _ hu
    simp [part0, hn]
  simp only [cleanReply, hstrip, hjn, hfind, hP2, hP3]
  have hw := strip_wrap s
  simpa using hw

/-- The unfenced form extracts to the stripped payload. -/
theorem cleanReply_unfenced (s : List Char) (h : ∀ c ∈ s, c ≠ btChar) :
    cleanReply s = pyStrip s := by
  have hclean2 : ∀ c ∈ pyStrip s, c ≠ btChar := fun c hc => h c (mem_of_pyStrip hc)
  have h1 : findSplit fenceJson (pyStrip s) = none := fs_none_clean _ _ hclean2
  have h2 : findSplit fence (pyStrip s) = none := fs_none_clean _ _ hclean2
  simp only [cleanReply, h1, h2]

/-- C3 (amended): for any payload text containing no backtick character, the
three raw-reply forms — wrapped in a json-tagged fence, wrapped in a plain
fence, and unwrapped — all extract by the inline fence-stripping logic to the
same stripped text, so whenever the payload parses as JSON, all three forms
extract to text parsing to the identical value.  The original claim ranged
over every JSON array text; it fails when the array text itself contains a
triple backtick (see the counterexample), so it is restricted to
backtick-free text. -/
theorem fence_stripping_equiv (s : List Char) (h : ∀ c ∈ s, c ≠ btChar) :
    cleanReply (fenceJson ++ ('\n' :: (s ++ ('\n' :: fence)))) = pyStrip s ∧
    cleanReply (fence ++ ('\n' :: (s ++ ('\n' :: fence)))) = pyStrip s ∧
    cleanReply s = pyStrip s ∧
    ∀ arr : Json, parseJsonTop s = some arr →
      parseJsonTop (cleanReply (fenceJson ++ ('\n' :: (s ++ ('\n' :: fence))))) = some arr ∧
      parseJsonTop (cleanReply (fence ++ ('\n' :: (s ++ ('\n' :: fence))))) = some arr ∧
      parseJsonTop (cleanReply s) = some arr := by
  refine ⟨cleanReply_jsonfenced s h, cleanReply_plainfenced s h, cleanReply_unfenced s h,
    fun arr harr => ?_⟩
  rw [cleanReply_jsonfenced s h, cleanReply_plainfenced s h, cleanReply_unfenced s h,
    parseJsonTop_pyStrip]
  exact ⟨harr, harr, harr⟩

theorem fence_stripping_equiv_witness :
    (∀ c ∈ ("[\"a\", 1]").data, c ≠ btChar) ∧
    (cleanReply (fenceJson ++ ('\n' :: (("[\"a\", 1]").data ++ ('\n' :: fence)))) =
        pyStrip (("[\"a\", 1]").data) ∧
      cleanReply (fence ++ ('\n' :: (("[\"a\", 1]").data ++ ('\n' :: fence)))) =
        pyStrip (("[\"a\", 1]").data) ∧
      cleanReply (("[\"a\", 1]").data) = pyStrip (("[\"a\", 1]").data) ∧
      ∀ arr : Json, parseJsonTop (("[\"a\", 1]").data) = some arr →
        parseJsonTop (cleanReply (fenceJson ++ ('\n' :: (("[\"a\", 1]").data ++ ('\n' :: fence))))) = some arr ∧
        parseJsonTop (cleanReply (fence ++ ('\n' :: (("[\"a\", 1]").data ++ ('\n' :: fence))))) = some arr ∧
        parseJsonTop (cleanReply (("[\"a\", 1]").data)) = some arr) :=
  ⟨by decide, fence_stripping_equiv (("[\"a\", 1]").data) (by decide)⟩

/-- C3 counterexample: the text `["a```b"]` is a JSON array text (it parses
to the one-element array of the string with three backticks), yet the
unwrapped form extracts by the fence-stripping logic to `b"]`, which does not
parse at all — so the three forms do not all extract to text parsing to the
identical array. -/
theorem fence_stripping_backtick_broken :
    parseJsonTop ['[', '"', 'a', btChar, btChar, btChar, 'b', '"', ']'] =
      some (Json.arr [Json.str (String.mk ['a', btChar, btChar, btChar, 'b'])]) ∧
    cleanReply ['[', '"', 'a', btChar, btChar, btChar, 'b', '"', ']'] = ['b', '"', ']'] ∧
    parseJsonTop (cleanReply ['[', '"', 'a', btChar, btChar, btChar, 'b', '"', ']']) = none :=
  ⟨rfl, rfl, rfl⟩

/-- The ids attached to the returned recipe objects. -/
def savedIds (l : List Json) : List (Option Json) := l.map (fun r => getField r "id")

theorem goodDraft_ok {e : Json} (h : goodDraft e = true) :
    ∃ v, drawVals e = .ok v := by
  rcases hd : drawVals e with exc | v
  · rw [goodDraft, hd] at h
    cases h
  · exact ⟨v, rfl⟩

theorem drawVals_ok_obj {r : Json} {v : Json × Json × Json × Json × Json}
    (h : drawVals r = .ok v) : ∃ flds, r = .obj flds := by
  rcases r with _ | b | n | s | xs | flds
  case obj => exact ⟨flds, rfl⟩
  all_goals simp [drawVals, pyGet, Bind.bind, Except.bind] at h

theorem pyGet_not_mysql {r : Json} {k : String} {exc : PyExc}
    (h : pyGet r k = .error exc) : ∀ m, exc ≠ PyExc.mysqlError m := by
  rcases r with _ | b | n | s | xs | flds
  case obj =>
    rcases hl : lookupF flds k with _ | v
    · simp [pyGet, hl] at h
      simp [← h]
    · simp [pyGet, hl] at h
  all_goals
    simp [pyGet] at h
    simp [← h]

theorem drawVals_error_not_mysql {r : Json} {exc : PyExc}
    (h : drawVals r = .error exc) : ∀ m, exc ≠ PyExc.mysqlError m := by
  rcases h1 : pyGet r "title" with e1 | v1
  · rw [drawVals] at h
    rw [h1] at h
    simp [Bind.bind, Except.bind] at h
    exact h ▸ pyGet_not_mysql h1
  · rcases h2 : pyGet r "ingredients" with e2 | v2
    · rw [drawVals] at h
      rw [h1, h2] at h
      simp [Bind.bind, Except.bind] at h
      exact h ▸ pyGet_not_mysql h2
    · rcases h3 : pyGet r "instructions" with e3 | v3
      · rw [drawVals] at h
        rw [h1, h2, h3] at h
        simp [Bind.bind, Except.bind] at h
        exact h ▸ pyGet_not_mysql h3
      · rcases h4 : pyGet r "prep_time" with e4 | v4
        · rw [drawVals] at h
          rw [h1, h2, h3, h4] at h
          simp [Bind.bind, Except.bind] at h
          exact h ▸ pyGet_not_mysql h4
        · rcases h5 : pyGet r "difficulty" with e5 | v5
          · rw [drawVals] at h
            rw [h1, h2, h3, h4, h5] at h
            simp [Bind.bind, Except.bind] at h
            exact h ▸ pyGet_not_mysql h5
          · rw [drawVals] at h
            rw [h1, h2, h3, h4, h5] at h
            simp [Bind.bind, Except.bind] at h

/-- The loop stops at the first failing INSERT: with well-shaped drafts, when
the INSERTs before position `k` succeed and the one at position `k` fails, the
loop raises the store error after exactly `k + 1` INSERT executions. -/
theorem insertLoop_fail (o : Oracle) (src : String) :
    ∀ (elems : List Json) (k i tick : Nat) (pending : List Row) (saved : List Json),
      (∀ e ∈ elems, goodDraft e = true) → k < elems.length →
      (∀ j, j < k → o.insertOk (i + j) = true) → o.insertOk (i + k) = false →
      insertLoop o src elems i tick pending saved =
        (.error (.mysqlError dbFailMsg), i + k + 1)
  | [], k, i, tick, pending, saved, _, hk, _, _ => absurd hk (by simp)
  | e :: rest, 0, i, tick, pending, saved, hgood, _, _, hfail => by
    obtain ⟨⟨tt, ing2, ins2, pt2, df2⟩, hd⟩ := goodDraft_ok (hgood e (by simp))
    have hf : o.insertOk i = false := by simpa using hfail
    simp [insertLoop, hd, hf]
  | e :: rest, k + 1, i, tick, pending, saved, hgood, hk, hpre2, hfail => by
    obtain ⟨⟨tt, ing2, ins2, pt2, df2⟩, hd⟩ := goodDraft_ok (hgood e (by simp))
    have hok : o.insertOk i = true := by simpa using hpre2 0 (Nat.succ_pos k)
    have ih := insertLoop_fail o src rest k (i + 1) (tick + 1)
      (pending ++ [insertRowStep tick tt ing2 ins2 pt2 df2 src])
      (saved ++ [mergeSaved e tick src])
      (fun x hx => hgood x (by simp [hx]))
      (by simpa using hk)
      (fun j hj => by
        have := hpre2 (j + 1) (by omega)
        have harith : i + (j + 1) = i + 1 + j := by omega
        rwa [harith] at this)
      (by
        have harith : i + (k + 1) = i + 1 + k := by omega
        rwa [harith] at hfail)
    have harith2 : i + 1 + k + 1 = i + (k + 1) + 1 := by omega
    simp [insertLoop, hd, hok, ih, harith2]

/-- A loop that hits an ill-shaped draft (with all INSERTs succeeding) raises
a non-store exception. -/
theorem insertLoop_bad (o : Oracle) (src : String) :
    ∀ (elems : List Json) (i tick : Nat) (pending : List Row) (saved : List Json),
      (∀ n, o.insertOk n = true) → (∃ e ∈ elems, goodDraft e = false) →
      ∃ exc att, insertLoop o src elems i tick pending saved = (.error exc, att) ∧
        ∀ m, exc ≠ PyExc.mysqlError m
  | [], _, _, _, _, _, hbad => by simp at hbad
  | e :: rest, i, tick, pending, saved, hins, hbad => by
    rcases hd : drawVals e with exc | v
    · exact ⟨exc, i, by simp [insertLoop, hd], drawVals_error_not_mysql hd⟩
    · obtain ⟨tt, ing2, ins2, pt2, df2⟩ := v
      have hge : goodDraft e = true := by simp [goodDraft, hd]
      have hbad2 : ∃ x ∈ rest, goodDraft x = false := by
        rcases hbad with ⟨x, hx, hxb⟩
        rcases List.mem_cons.mp hx with hx1 | hx2
        · rw [hx1] at hxb
          rw [hge] at hxb
          cases hxb
        · exact ⟨x, hx2, hxb⟩
      obtain ⟨exc, att, heq, hnm⟩ := insertLoop_bad o src rest (i + 1) (tick + 1)
        (pending ++ [insertRowStep tick tt ing2 ins2 pt2 df2 src])
        (saved ++ [mergeSaved e tick src]) hins hbad2
      exact ⟨exc, att, by simp [insertLoop, hd, hins i, heq], hnm⟩

/-- The function assigning the id object attached to the n-th inserted
recipe. -/
def idOf (n : Nat) : Option Json := some (.num (Int.ofNat n))

/-- Shape of a fully successful loop run: one returned recipe per draft, ids
assigned consecutively from the starting tick, source_ingredients echoed on
every new entry, and one INSERT execution per draft. -/
theorem insertLoop_ok (o : Oracle) (src : String) :
    ∀ (elems : List Json) (i tick : Nat) (pending : List Row) (saved : List Json)
      (pending2 : List Row) (saved2 : List Json) (tick2 att : Nat),
      insertLoop o src elems i tick pending saved = (.ok (pending2, saved2, tick2), att) →
      (∀ r ∈ saved, getField r "source_ingredients" = some (.str src)) →
      saved2.length = saved.length + elems.length ∧
      att = i + elems.length ∧
      tick2 = tick + elems.length ∧
      savedIds saved2 = savedIds saved ++ (List.range' tick elems.length).map idOf ∧
      (∀ r ∈ saved2, getField r "source_ingredients" = some (.str src))
  | [], i, tick, pending, saved, pending2, saved2, tick2, att, heq, hsrc => by
    simp only [insertLoop, Prod.mk.injEq, Except.ok.injEq] at heq
    obtain ⟨⟨hp, hs, ht⟩, ha⟩ := heq
    subst hs
    subst ht
    subst ha
    exact ⟨by simp, by simp, by simp, by simp [List.range', savedIds], hsrc⟩
  | e :: rest, i, tick, pending, saved, pending2, saved2, tick2, att, heq, hsrc => by
    rcases hd : drawVals e with exc | v
    · simp only [insertLoop, hd] at heq
      simp at heq
    · obtain ⟨tt, ing2, ins2, pt2, df2⟩ := v
      rcases hok : o.insertOk i with _ | _
      · simp only [insertLoop, hd, hok] at heq
        simp at heq
      · simp only [insertLoop, hd, hok, if_true] at heq
        obtain ⟨flds, hobj⟩ := drawVals_ok_obj hd
        have hsrc2 : ∀ r ∈ saved ++ [mergeSaved e tick src],
            getField r "source_ingredients" = some (.str src) := by
          intro r hr
          rcases List.mem_append.mp hr with hr1 | hr2
          · exact hsrc r hr1
          · simp at hr2
            rw [hr2, hobj]
            exact getField_mergeSaved_src flds tick src
        obtain ⟨hl, ha, ht, hids, hs⟩ := insertLoop_ok o src rest (i + 1) (tick + 1)
          (pending ++ [insertRowStep tick tt ing2 ins2 pt2 df2 src])
          (saved ++ [mergeSaved e tick src]) pending2 saved2 tick2 att heq hsrc2
        have hl2 : saved2.length = saved.length + 1 + rest.length := by
          simpa using hl
        refine ⟨by simp only [List.length_cons]; omega,
          by simp only [List.length_cons]; omega,
          by simp only [List.length_cons]; omega, ?_, hs⟩
        rw [hids]
        have hr : List.range' tick (e :: rest).length =
            tick :: List.range' (tick + 1) rest.length := rfl
        rw [hr]
        simp only [savedIds, List.map_append, List.map_cons]
        simp [hobj, getField_mergeSaved_id, idOf]

/-- C2 (amended): if an INSERT fails partway through the batch, the handler
stops after that INSERT (exactly `k + 1` executions for a failure at position
`k`), returns the database-error 500 response, and the durable store is
unchanged: the rows inserted before the failure are NOT persisted, because
`conn.commit()` runs only after the whole loop, the handler returns from the
`except` clause without committing, and the abandoned connection's
uncommitted work is rolled back.  The connection is also never closed on this
path.  The original claim stated that the rows inserted before the failure
remain persisted; the counterexample shows they do not. -/
theorem get_recipes_insert_failure (ing raw : String) (o : Oracle) (db : DbState)
    (parsed : Json) (elems : List Json) (k : Nat)
    (hing : ing ≠ "") (hai : o.ai = .ok raw)
    (hparse : parseJsonTop (cleanReply raw.data) = some parsed)
    (hiter : pyIter parsed = .ok elems)
    (hconn : o.connectOk = true)
    (hgood : ∀ e ∈ elems, goodDraft e = true)
    (hk : k < elems.length)
    (hpre2 : ∀ j, j < k → o.insertOk j = true)
    (hfail : o.insertOk k = false) :
    get_recipes ing o db =
      ⟨.dbError ("Database error: " ++ dbFailMsg), 500, true, 1, 0, k + 1, db⟩ := by
  have hloop : insertLoop o ing elems 0 db.tick [] [] =
      (.error (.mysqlError dbFailMsg), k + 1) := by
    have := insertLoop_fail o ing elems k 0 db.tick [] [] hgood hk
      (fun j hj => by simpa using hpre2 j hj) (by simpa using hfail)
    simpa using this
  simp [get_recipes, hing, hai, hparse, hconn, hiter, hloop]

/-- A concrete AI reply containing two well-formed drafts, used to exercise
the insert loop. -/
def rawTwoDrafts : String :=
  "[\x7b\"title\": \"t1\", \"ingredients\": [\"i\"], \"instructions\": [\"s\"], \"prep_time\": \"5 mins\", \"difficulty\": \"Easy\"\x7d, \x7b\"title\": \"t2\", \"ingredients\": [\"j\"], \"instructions\": [\"u\"], \"prep_time\": \"10 mins\", \"difficulty\": \"Hard\"\x7d]"

/-- The first draft of `rawTwoDrafts` as parsed. -/
def draft1 : Json :=
  .obj [("title", .str "t1"), ("ingredients", .arr [.str "i"]),
        ("instructions", .arr [.str "s"]), ("prep_time", .str "5 mins"),
        ("difficulty", .str "Easy")]

/-- The second draft of `rawTwoDrafts` as parsed. -/
def draft2 : Json :=
  .obj [("title", .str "t2"), ("ingredients", .arr [.str "j"]),
        ("instructions", .arr [.str "u"]), ("prep_time", .str "10 mins"),
        ("difficulty", .str "Hard")]

set_option maxRecDepth 16384 in
theorem get_recipes_insert_failure_witness :
    (1 < 2) ∧
    get_recipes "x" ⟨.ok rawTwoDrafts, true, true, fun i => i == 0⟩ ⟨1, []⟩ =
      ⟨.dbError ("Database error: " ++ dbFailMsg), 500, true, 1, 0, 2, ⟨1, []⟩⟩ :=
  ⟨by decide,
    get_recipes_insert_failure "x" rawTwoDrafts ⟨.ok rawTwoDrafts, true, true, fun i => i == 0⟩
      ⟨1, []⟩ (.arr [draft1, draft2]) [draft1, draft2] 1
      (by decide) rfl rfl rfl rfl (by decide) (by decide) (by decide) (by decide)⟩

set_option maxRecDepth 16384 in
/-- C2 counterexample: with two well-formed drafts and the second INSERT
failing, the handler reports the database error after 2 INSERT executions,
but the store remains empty — the row inserted before the failure is not
persisted, contradicting the claim that rows inserted before the failure
within the batch remain persisted. -/
theorem get_recipes_partial_rows_not_persisted :
    (get_recipes "x" ⟨.ok rawTwoDrafts, true, true, fun i => i == 0⟩ ⟨1, []⟩).resp =
      Resp.dbError ("Database error: " ++ dbFailMsg) ∧
    (get_recipes "x" ⟨.ok rawTwoDrafts, true, true, fun i => i == 0⟩ ⟨1, []⟩).insertAttempts = 2 ∧
    (get_recipes "x" ⟨.ok rawTwoDrafts, true, true, fun i => i == 0⟩ ⟨1, []⟩).status = 500 ∧
    (get_recipes "x" ⟨.ok rawTwoDrafts, true, true, fun i => i == 0⟩ ⟨1, []⟩).db.rows = [] :=
  ⟨rfl, rfl, rfl, rfl⟩

/-- C10: when the AI reply parses as a JSON array but some element lacks one
of the required keys, and the store itself does not fail, the handler returns
the 500 generic server-error envelope (the KeyError propagates past the
mysql-only `except` clause to the outer generic one), not the
MalformedAIResponse diagnostic shape, and no rows from the request are
committed, since the commit only happens after the whole insert loop. -/
theorem get_recipes_missing_key (ing raw : String) (o : Oracle) (db : DbState)
    (elems : List Json)
    (hing : ing ≠ "") (hai : o.ai = .ok raw)
    (hparse : parseJsonTop (cleanReply raw.data) = some (.arr elems))
    (hconn : o.connectOk = true)
    (hins : ∀ n, o.insertOk n = true)
    (hbad : ∃ e ∈ elems, goodDraft e = false) :
    respIsServerError (get_recipes ing o db).resp = true ∧
    (get_recipes ing o db).status = 500 ∧
    (get_recipes ing o db).db = db ∧
    (get_recipes ing o db).connClosed = 0 := by
  obtain ⟨exc, att, heq, hnm⟩ := insertLoop_bad o ing elems 0 db.tick [] [] hins hbad
  rcases exc with k | m | m | m
  · simp [get_recipes, hing, hai, hparse, hconn, pyIter, heq, respIsServerError]
  · simp [get_recipes, hing, hai, hparse, hconn, pyIter, heq, respIsServerError]
  · exact absurd rfl (hnm m)
  · simp [get_recipes, hing, hai, hparse, hconn, pyIter, heq, respIsServerError]

theorem get_recipes_missing_key_witness :
    (∃ e ∈ [Json.obj []], goodDraft e = false) ∧
    (respIsServerError (get_recipes "x" ⟨.ok "[\x7b\x7d]", true, true, fun _ => true⟩ ⟨1, []⟩).resp = true ∧
      (get_recipes "x" ⟨.ok "[\x7b\x7d]", true, true, fun _ => true⟩ ⟨1, []⟩).status = 500 ∧
      (get_recipes "x" ⟨.ok "[\x7b\x7d]", true, true, fun _ => true⟩ ⟨1, []⟩).db = ⟨1, []⟩ ∧
      (get_recipes "x" ⟨.ok "[\x7b\x7d]", true, true, fun _ => true⟩ ⟨1, []⟩).connClosed = 0) :=
  ⟨⟨Json.obj [], by simp, rfl⟩,
    get_recipes_missing_key "x" "[\x7b\x7d]" ⟨.ok "[\x7b\x7d]", true, true, fun _ => true⟩ ⟨1, []⟩
      [Json.obj []] (by decide) rfl rfl rfl (fun _ => rfl) ⟨Json.obj [], by simp, rfl⟩⟩

/-- C5: for every non-empty ingredients string, `get_recipes` either returns
the success body — whose `count` field equals the length of its recipes list,
whose recipes list has exactly one entry per element the parsed AI reply
contained, and where every returned recipe carries a freshly assigned unique
identifier and the echoed source_ingredients — or returns one of the
handler's well-defined error bodies; no exception escapes and no
partially-shaped success body is produced. -/
theorem get_recipes_success_shape (ing : String) (o : Oracle) (db : DbState)
    (hing : ing ≠ "") :
    handledResp (get_recipes ing o db).resp = true ∧
    ∀ saved cnt, (get_recipes ing o db).resp = .ok saved cnt →
      cnt = saved.length ∧
      (savedIds saved).Nodup ∧
      (∀ r ∈ saved, getField r "source_ingredients" = some (.str ing)) ∧
      ∀ raw parsed elems, o.ai = .ok raw →
        parseJsonTop (cleanReply raw.data) = some parsed →
        pyIter parsed = .ok elems → saved.length = elems.length := by
  rcases hai : o.ai with m | raw0
  · refine ⟨by simp [get_recipes, hing, hai, handledResp], ?_⟩
    intro saved cnt hresp
    simp [get_recipes, hing, hai] at hresp
  · rcases hparse : parseJsonTop (cleanReply raw0.data) with _ | parsed0
    · refine ⟨by simp [get_recipes, hing, hai, hparse, handledResp], ?_⟩
      intro saved cnt hresp
      simp [get_recipes, hing, hai, hparse] at hresp
    · rcases hconn : o.connectOk with _ | _
      · refine ⟨by simp [get_recipes, hing, hai, hparse, hconn, handledResp], ?_⟩
        intro saved cnt hresp
        simp [get_recipes, hing, hai, hparse, hconn] at hresp
      · rcases hiter : pyIter parsed0 with e | elems0
        · refine ⟨by simp [get_recipes, hing, hai, hparse, hconn, hiter, handledResp], ?_⟩
          intro saved cnt hresp
          simp [get_recipes, hing, hai, hparse, hconn, hiter] at hresp
        · rcases hloop : insertLoop o ing elems0 0 db.tick [] [] with ⟨res, att⟩
          rcases res with exc | ⟨pending2, saved2, tick2⟩
          · rcases exc with k | m | m | m
            all_goals refine
              ⟨by simp [get_recipes, hing, hai, hparse, hconn, hiter, hloop, handledResp], ?_⟩
            all_goals intro saved cnt hresp
            all_goals simp [get_recipes, hing, hai, hparse, hconn, hiter, hloop] at hresp
          · obtain ⟨hl, ha, ht, hids, hs⟩ :=
              insertLoop_ok o ing elems0 0 db.tick [] [] pending2 saved2 tick2 att hloop
                (by simp)
            refine
              ⟨by simp [get_recipes, hing, hai, hparse, hconn, hiter, hloop, handledResp], ?_⟩
            intro saved cnt hresp
            have hresp2 : saved2 = saved ∧ saved2.length = cnt := by
              have h0 : (get_recipes ing o db).resp = .ok saved2 saved2.length := by
                simp [get_recipes, hing, hai, hparse, hconn, hiter, hloop]
              rw [h0] at hresp
              simpa [Resp.ok.injEq] using hresp
            obtain ⟨hsv, hcnt⟩ := hresp2
            subst hsv
            subst hcnt
            have hids2 : savedIds saved2 = (List.range' db.tick elems0.length).map idOf := by
              simpa [savedIds] using hids
            refine ⟨rfl, ?_, hs, ?_⟩
            · rw [hids2]
              have hinj : Function.Injective idOf := by
                intro a b hab
                simpa [idOf] using hab
              exact List.Nodup.map hinj (List.nodup_range' db.tick elems0.length)
            · intro raw parsed elems hr hp hi
              have hraw : raw = raw0 := (Except.ok.inj hr).symm
              subst hraw
              have hparsed : parsed = parsed0 := by
                rw [hparse] at hp
                exact (Option.some.inj hp).symm
              subst hparsed
              have helems : elems = elems0 := by
                rw [hiter] at hi
                exact (Except.ok.inj hi).symm
              subst helems
              simpa using hl

theorem get_recipes_success_shape_witness :
    ("x" : String) ≠ "" ∧
    (handledResp (get_recipes "x" ⟨.ok rawTwoDrafts, true, true, fun _ => true⟩ ⟨1, []⟩).resp = true ∧
      ∀ saved cnt,
        (get_recipes "x" ⟨.ok rawTwoDrafts, true, true, fun _ => true⟩ ⟨1, []⟩).resp = .ok saved cnt →
        cnt = saved.length ∧
        (savedIds saved).Nodup ∧
        (∀ r ∈ saved, getField r "source_ingredients" = some (.str "x")) ∧
        ∀ raw parsed elems, (Except.ok rawTwoDrafts : Except String String) = .ok raw →
          parseJsonTop (cleanReply raw.data) = some parsed →
          pyIter parsed = .ok elems → saved.length = elems.length) :=
  ⟨by decide,
    get_recipes_success_shape "x" ⟨.ok rawTwoDrafts, true, true, fun _ => true⟩ ⟨1, []⟩ (by decide)⟩

theorem get_recipes_handled (ing : String) (o : Oracle) (db : DbState) :
    handledResp (get_recipes ing o db).resp = true := by
  by_cases hing2 : ing = ""
  · simp [get_recipes, hing2, handledResp]
  · rcases hai : o.ai with m | raw0
    · simp [get_recipes, hing2, hai, handledResp]
    · rcases hparse : parseJsonTop (cleanReply raw0.data) with _ | parsed0
      · simp [get_recipes, hing2, hai, hparse, handledResp]
      · rcases hconn : o.connectOk with _ | _
        · simp [get_recipes, hing2, hai, hparse, hconn, handledResp]
        · rcases hiter : pyIter parsed0 with e | elems0
          · simp [get_recipes, hing2, hai, hparse, hconn, hiter, handledResp]
          · rcases hloop : insertLoop o ing elems0 0 db.tick [] [] with ⟨res, att⟩
            rcases res with exc | ⟨p2, s2, t2⟩
            · rcases exc with k | m | m | m <;>
                simp [get_recipes, hing2, hai, hparse, hconn, hiter, hloop, handledResp]
            · simp [get_recipes, hing2, hai, hparse, hconn, hiter, hloop, handledResp]

theorem decodeRow_ok_of {r : Row} (h1 : (parseJsonTop r.ingredients.data).isSome = true)
    (h2 : (parseJsonTop r.instructions.data).isSome = true) :
    ∃ d, decodeRow r = .ok d := by
  obtain ⟨v1, hv1⟩ := Option.isSome_iff_exists.mp h1
  obtain ⟨v2, hv2⟩ := Option.isSome_iff_exists.mp h2
  exact ⟨⟨r.id, r.title, v1, v2, r.prep_time, r.difficulty, r.source_ingredients,
    r.created_at⟩, by simp [decodeRow, hv1, hv2]⟩

theorem decodeRows_ok_of :
    ∀ l : List Row,
      (∀ r ∈ l, (parseJsonTop r.ingredients.data).isSome = true ∧
        (parseJsonTop r.instructions.data).isSome = true) →
      ∃ ds, decodeRows l = .ok ds
  | [], _ => ⟨[], rfl⟩
  | r :: rest, h => by
    obtain ⟨d, hd⟩ := decodeRow_ok_of (h r (by simp)).1 (h r (by simp)).2
    obtain ⟨ds, hds⟩ := decodeRows_ok_of rest (fun x hx => h x (by simp [hx]))
    exact ⟨d :: ds, by simp [decodeRows, hd, hds, Bind.bind, Except.bind]⟩

theorem mem_insDesc {x r : Row} : ∀ {l : List Row}, x ∈ insDesc r l → x = r ∨ x ∈ l := by
  intro l
  induction l with
  | nil => simp [insDesc]
  | cons y ys ih =>
    by_cases hc : y.created_at < r.created_at
    · intro hx
      simp only [insDesc, if_pos hc] at hx
      rcases List.mem_cons.mp hx with h1 | h2
      · exact Or.inl h1
      · exact Or.inr h2
    · intro hx
      simp only [insDesc, if_neg hc] at hx
      rcases List.mem_cons.mp hx with h1 | h2
      · exact Or.inr (by simp [h1])
      · rcases ih h2 with h3 | h4
        · exact Or.inl h3
        · exact Or.inr (by simp [h4])

theorem mem_insSortDesc {x : Row} : ∀ {l : List Row}, x ∈ insSortDesc l → x ∈ l := by
  intro l
  induction l with
  | nil => simp [insSortDesc]
  | cons y ys ih =>
    intro hx
    rcases mem_insDesc hx with h1 | h2
    · simp [h1]
    · simp [ih h2]

theorem mem_of_listAll {x : Row} {db : DbState} (h : x ∈ listAll db) : x ∈ db.rows :=
  mem_insSortDesc h

theorem findById_mem : ∀ (l : List Row) (rid : Nat) (r : Row),
    findById l rid = some r → r ∈ l
  | [], _, _, h => by simp [findById] at h
  | y :: ys, rid, r, h => by
    by_cases hc : (y.id == rid) = true
    · simp only [findById, if_pos hc] at h
      simp [← Option.some.inj h]
    · simp only [findById, if_neg hc] at h
      simp [findById_mem ys rid r h]

theorem list_recipes_handled (o : Oracle) (db : DbState) (hwf : WFjson db) :
    handledResp (list_recipes o db).resp = true := by
  rcases hconn : o.connectOk with _ | _
  · simp [list_recipes, hconn, handledResp]
  · rcases hq : o.queryOk with _ | _
    · simp [list_recipes, hconn, hq, handledResp]
    · obtain ⟨ds, hds⟩ :=
        decodeRows_ok_of (listAll db) (fun r hr => hwf r (mem_of_listAll hr))
      simp [list_recipes, hconn, hq, hds, handledResp]

theorem get_recipe_handled (rid : Nat) (o : Oracle) (db : DbState) (hwf : WFjson db) :
    handledResp (get_recipe rid o db).resp = true := by
  rcases hconn : o.connectOk with _ | _
  · simp [get_recipe, hconn, handledResp]
  · rcases hq : o.queryOk with _ | _
    · simp [get_recipe, hconn, hq, handledResp]
    · rcases hfind : findById db.rows rid with _ | r
      · simp [get_recipe, hconn, hq, hfind, handledResp]
      · obtain ⟨d, hd⟩ :=
          decodeRow_ok_of (hwf r (findById_mem db.rows rid r hfind)).1
            (hwf r (findById_mem db.rows rid r hfind)).2
        simp [get_recipe, hconn, hq, hfind, hd, handledResp]

/-- C7: under the store-enforced invariant that the JSON text columns of
committed rows are valid JSON (the columns are MySQL JSON columns), every
handler converts every modelled failure — invalid input, AI fault, malformed
reply, store fault, missing row — into one of its own JSON bodies: no
exception escapes any of the five handlers to the framework's generic
unhandled-fault response. -/
theorem handlers_convert_failures (o : Oracle) (db : DbState) (ing : String) (rid : Nat)
    (mr : Except String (List String)) (hwf : WFjson db) :
    handledResp (get_recipes ing o db).resp = true ∧
    handledResp (list_recipes o db).resp = true ∧
    handledResp (get_recipe rid o db).resp = true ∧
    handledResp (health_check o db).resp = true ∧
    handledResp (list_models mr) = true := by
  refine ⟨get_recipes_handled ing o db, list_recipes_handled o db hwf,
    get_recipe_handled rid o db hwf, ?_, ?_⟩
  · rcases hconn : o.connectOk with _ | _
    · simp [health_check, hconn, handledResp]
    · rcases hq : o.queryOk with _ | _ <;> simp [health_check, hconn, hq, handledResp]
  · rcases mr with m | names <;> simp [list_models, handledResp]

theorem handlers_convert_failures_witness :
    WFjson ⟨1, []⟩ ∧
    (handledResp (get_recipes "x" ⟨.error "boom", false, true, fun _ => true⟩ ⟨1, []⟩).resp = true ∧
      handledResp (list_recipes ⟨.error "boom", false, true, fun _ => true⟩ ⟨1, []⟩).resp = true ∧
      handledResp (get_recipe 7 ⟨.error "boom", false, true, fun _ => true⟩ ⟨1, []⟩).resp = true ∧
      handledResp (health_check ⟨.error "boom", false, true, fun _ => true⟩ ⟨1, []⟩).resp = true ∧
      handledResp (list_models (.error "m")) = true) :=
  ⟨by simp [WFjson],
    handlers_convert_failures ⟨.error "boom", false, true, fun _ => true⟩ ⟨1, []⟩ "x" 7
      (.error "m") (by simp [WFjson])⟩

theorem insDesc_last (r : Row) :
    ∀ l : List Row, (∀ x ∈ l, ¬ x.created_at < r.created_at) → insDesc r l = l ++ [r]
  | [], _ => rfl
  | y :: ys, h => by
    have hy : ¬ y.created_at < r.created_at := h y (by simp)
    simp [insDesc, hy, insDesc_last r ys (fun x hx => h x (by simp [hx]))]

theorem insSortDesc_eq_reverse :
    ∀ l : List Row, List.Pairwise (fun a b => a.created_at < b.created_at) l →
      insSortDesc l = l.reverse
  | [], _ => rfl
  | a :: t, h => by
    have h1 : ∀ x ∈ t, a.created_at < x.created_at := (List.pairwise_cons.mp h).1
    have h2 := insSortDesc_eq_reverse t (List.pairwise_cons.mp h).2
    have h3 : ∀ x ∈ t.reverse, ¬ x.created_at < a.created_at := by
      intro x hx
      exact Nat.lt_asymm (h1 x (List.mem_reverse.mp hx))
    simp [insSortDesc, h2, insDesc_last a t.reverse h3]

theorem listAll_eq_reverse {db : DbState} (h : WForder db) : listAll db = db.rows.reverse :=
  insSortDesc_eq_reverse db.rows h.1

/-- C8: the list endpoint returns rows newest first.  Inserting recipe A and
then recipe B into a well-formed store, the SELECT with ORDER BY created_at
DESC returns B, then A, then the previous rows (themselves newest first):
any recipe inserted earlier is listed after one inserted later. -/
theorem list_recipes_newest_first (db : DbState) (h : WForder db)
    (tA : Json) (iA nA : String) (pA dA : Json) (sA : String)
    (tB : Json) (iB nB : String) (pB dB : Json) (sB : String) :
    listAll ((dbInsertRow ((dbInsertRow db tA iA nA pA dA sA).1) tB iB nB pB dB sB).1) =
      ⟨db.tick + 1, tB, iB, nB, pB, dB, sB, db.tick + 1⟩ ::
        ⟨db.tick, tA, iA, nA, pA, dA, sA, db.tick⟩ :: listAll db := by
  have hrows : ((dbInsertRow ((dbInsertRow db tA iA nA pA dA sA).1) tB iB nB pB dB sB).1).rows
      = db.rows ++ [⟨db.tick, tA, iA, nA, pA, dA, sA, db.tick⟩,
          ⟨db.tick + 1, tB, iB, nB, pB, dB, sB, db.tick + 1⟩] := by
    simp [dbInsertRow]
  have hpw : List.Pairwise (fun a b => a.created_at < b.created_at)
      (db.rows ++ [⟨db.tick, tA, iA, nA, pA, dA, sA, db.tick⟩,
        ⟨db.tick + 1, tB, iB, nB, pB, dB, sB, db.tick + 1⟩]) := by
    rw [List.pairwise_append]
    refine ⟨h.1, ?_, ?_⟩
    · simp [List.pairwise_cons]
    · intro a ha b hb
      have ha2 : a.created_at < db.tick := h.2 a ha
      rcases List.mem_cons.mp hb with hb1 | hb2
      · rw [hb1]
        simp
        omega
      · simp at hb2
        rw [hb2]
        simp
        omega
  have hstep : listAll ((dbInsertRow ((dbInsertRow db tA iA nA pA dA sA).1) tB iB nB pB dB sB).1)
      = (db.rows ++ [(⟨db.tick, tA, iA, nA, pA, dA, sA, db.tick⟩ : Row),
          (⟨db.tick + 1, tB, iB, nB, pB, dB, sB, db.tick + 1⟩ : Row)]).reverse := by
    rw [listAll, hrows]
    exact insSortDesc_eq_reverse _ hpw
  rw [hstep, listAll_eq_reverse h]
  simp

theorem list_recipes_newest_first_witness :
    WForder ⟨1, []⟩ ∧
    listAll ((dbInsertRow ((dbInsertRow ⟨1, []⟩ (.str "a") "[]" "[]" (.str "5") (.str "Easy") "x").1)
        (.str "b") "[]" "[]" (.str "9") (.str "Hard") "y").1) =
      [⟨2, .str "b", "[]", "[]", .str "9", .str "Hard", "y", 2⟩,
       ⟨1, .str "a", "[]", "[]", .str "5", .str "Easy", "x", 1⟩] :=
  ⟨⟨List.Pairwise.nil, by simp⟩, by
    have := list_recipes_newest_first ⟨1, []⟩ ⟨List.Pairwise.nil, by simp⟩
      (.str "a") "[]" "[]" (.str "5") (.str "Easy") "x"
      (.str "b") "[]" "[]" (.str "9") (.str "Hard") "y"
    simpa [listAll, insSortDesc] using this⟩

/-- C9 (amended): connections are closed only on the paths that complete
their statements — `get_recipes` and `list_recipes` close on their success
bodies, `get_recipe` closes whenever the row fetch completes (found or not
found), and `health_check` closes on the healthy body; but whenever a
statement fails on an already-acquired connection (a failing INSERT in
`get_recipes`, a failing SELECT in `list_recipes`, `get_recipe` or
`health_check`), the handler returns from its `except` clause without ever
calling `conn.close()`, leaving the acquired connection unreleased (see the
counterexample for `get_recipes`; the second conjunct exhibits it for the
other three handlers).  The original claim asserted release on every failure
path as well. -/
theorem connections_closed_on_success (o : Oracle) (db : DbState) (ing : String) (rid : Nat) :
    ((respIsOk (get_recipes ing o db).resp = true →
      (get_recipes ing o db).connClosed = (get_recipes ing o db).connOpened) ∧
    (respIsOkList (list_recipes o db).resp = true →
      (list_recipes o db).connClosed = (list_recipes o db).connOpened) ∧
    (respIsFetched (get_recipe rid o db).resp = true →
      (get_recipe rid o db).connClosed = (get_recipe rid o db).connOpened) ∧
    (respIsHealthy (health_check o db).resp = true →
      (health_check o db).connClosed = (health_check o db).connOpened)) ∧
    (o.connectOk = true → o.queryOk = false →
      ((list_recipes o db).connOpened = 1 ∧ (list_recipes o db).connClosed = 0) ∧
      ((get_recipe rid o db).connOpened = 1 ∧ (get_recipe rid o db).connClosed = 0) ∧
      ((health_check o db).connOpened = 1 ∧ (health_check o db).connClosed = 0)) := by
  constructor
  · refine ⟨?_, ?_, ?_, ?_⟩
    · by_cases hing2 : ing = ""
      · simp [get_recipes, hing2, respIsOk]
      · rcases hai : o.ai with m | raw0
        · simp [get_recipes, hing2, hai, respIsOk]
        · rcases hparse : parseJsonTop (cleanReply raw0.data) with _ | parsed0
          · simp [get_recipes, hing2, hai, hparse, respIsOk]
          · rcases hconn : o.connectOk with _ | _
            · simp [get_recipes, hing2, hai, hparse, hconn, respIsOk]
            · rcases hiter : pyIter parsed0 with e | elems0
              · simp [get_recipes, hing2, hai, hparse, hconn, hiter, respIsOk]
              · rcases hloop : insertLoop o ing elems0 0 db.tick [] [] with ⟨res, att⟩
                rcases res with exc | ⟨p2, s2, t2⟩
                · rcases exc with k | m | m | m <;>
                    simp [get_recipes, hing2, hai, hparse, hconn, hiter, hloop, respIsOk]
                · simp [get_recipes, hing2, hai, hparse, hconn, hiter, hloop, respIsOk]
    · rcases hconn : o.connectOk with _ | _
      · simp [list_recipes, hconn, respIsOkList]
      · rcases hq : o.queryOk with _ | _
        · simp [list_recipes, hconn, hq, respIsOkList]
        · rcases hdec : decodeRows (listAll db) with e | recs
          · simp [list_recipes, hconn, hq, hdec, respIsOkList]
          · simp [list_recipes, hconn, hq, hdec, respIsOkList]
    · rcases hconn : o.connectOk with _ | _
      · simp [get_recipe, hconn, respIsFetched]
      · rcases hq : o.queryOk with _ | _
        · simp [get_recipe, hconn, hq, respIsFetched]
        · rcases hfind : findById db.rows rid with _ | r
          · simp [get_recipe, hconn, hq, hfind, respIsFetched]
          · rcases hdec : decodeRow r with e | d
            · simp [get_recipe, hconn, hq, hfind, hdec, respIsFetched]
            · simp [get_recipe, hconn, hq, hfind, hdec, respIsFetched]
    · rcases hconn : o.connectOk with _ | _
      · simp [health_check, hconn, respIsHealthy]
      · rcases hq : o.queryOk with _ | _ <;> simp [health_check, hconn, hq, respIsHealthy]
  · intro hconn hq
    refine ⟨⟨?_, ?_⟩, ⟨?_, ?_⟩, ⟨?_, ?_⟩⟩ <;>
      simp [list_recipes, get_recipe, health_check, hconn, hq]

set_option maxRecDepth 16384 in
theorem connections_closed_on_success_witness :
    (respIsOk (get_recipes "x" ⟨.ok rawTwoDrafts, true, true, fun _ => true⟩ ⟨1, []⟩).resp = true ∧
      (get_recipes "x" ⟨.ok rawTwoDrafts, true, true, fun _ => true⟩ ⟨1, []⟩).connClosed =
        (get_recipes "x" ⟨.ok rawTwoDrafts, true, true, fun _ => true⟩ ⟨1, []⟩).connOpened) ∧
    (respIsOkList (list_recipes ⟨.ok rawTwoDrafts, true, true, fun _ => true⟩ ⟨1, []⟩).resp = true ∧
      (list_recipes ⟨.ok rawTwoDrafts, true, true, fun _ => true⟩ ⟨1, []⟩).connClosed =
        (list_recipes ⟨.ok rawTwoDrafts, true, true, fun _ => true⟩ ⟨1, []⟩).connOpened) ∧
    (respIsFetched (get_recipe 0 ⟨.ok rawTwoDrafts, true, true, fun _ => true⟩ ⟨1, []⟩).resp = true ∧
      (get_recipe 0 ⟨.ok rawTwoDrafts, true, true, fun _ => true⟩ ⟨1, []⟩).connClosed =
        (get_recipe 0 ⟨.ok rawTwoDrafts, true, true, fun _ => true⟩ ⟨1, []⟩).connOpened) ∧
    (respIsHealthy (health_check ⟨.ok rawTwoDrafts, true, true, fun _ => true⟩ ⟨1, []⟩).resp = true ∧
      (health_check ⟨.ok rawTwoDrafts, true, true, fun _ => true⟩ ⟨1, []⟩).connClosed =
        (health_check ⟨.ok rawTwoDrafts, true, true, fun _ => true⟩ ⟨1, []⟩).connOpened) ∧
    ((list_recipes ⟨.ok rawTwoDrafts, true, false, fun _ => true⟩ ⟨1, []⟩).connOpened = 1 ∧
      (list_recipes ⟨.ok rawTwoDrafts, true, false, fun _ => true⟩ ⟨1, []⟩).connClosed = 0) ∧
    ((get_recipe 0 ⟨.ok rawTwoDrafts, true, false, fun _ => true⟩ ⟨1, []⟩).connOpened = 1 ∧
      (get_recipe 0 ⟨.ok rawTwoDrafts, true, false, fun _ => true⟩ ⟨1, []⟩).connClosed = 0) ∧
    ((health_check ⟨.ok rawTwoDrafts, true, false, fun _ => true⟩ ⟨1, []⟩).connOpened = 1 ∧
      (health_check ⟨.ok rawTwoDrafts, true, false, fun _ => true⟩ ⟨1, []⟩).connClosed = 0) :=
  ⟨⟨rfl,
      (connections_closed_on_success ⟨.ok rawTwoDrafts, true, true, fun _ => true⟩
        ⟨1, []⟩ "x" 0).1.1 rfl⟩,
    ⟨rfl,
      (connections_closed_on_success ⟨.ok rawTwoDrafts, true, true, fun _ => true⟩
        ⟨1, []⟩ "x" 0).1.2.1 rfl⟩,
    ⟨rfl,
      (connections_closed_on_success ⟨.ok rawTwoDrafts, true, true, fun _ => true⟩
        ⟨1, []⟩ "x" 0).1.2.2.1 rfl⟩,
    ⟨rfl,
      (connections_closed_on_success ⟨.ok rawTwoDrafts, true, true, fun _ => true⟩
        ⟨1, []⟩ "x" 0).1.2.2.2 rfl⟩,
    (connections_closed_on_success ⟨.ok rawTwoDrafts, true, false, fun _ => true⟩
      ⟨1, []⟩ "x" 0).2 rfl rfl⟩

set_option maxRecDepth 16384 in
/-- C9 counterexample: when the second INSERT of the batch fails, the handler
acquires one connection and returns from the database `except` clause without
releasing it — the failure path does not close the connection. -/
theorem connection_leaked_on_insert_failure :
    (get_recipes "x" ⟨.ok rawTwoDrafts, true, true, fun i => i == 0⟩ ⟨1, []⟩).connOpened = 1 ∧
    (get_recipes "x" ⟨.ok rawTwoDrafts, true, true, fun i => i == 0⟩ ⟨1, []⟩).connClosed = 0 :=
  ⟨rfl, rfl⟩
